import Mathlib

/-!
Verification development for the `cubulous_client` GPU renderer.

Each section is a shallow embedding of one part of the Rust source:

* `Sbt` — the shader-binding-table layout arithmetic of
  `graphics/rt_renderer/src/rt_pipeline.rs` (`align_u32`, `RtPipeline::new`).
* `MemIndex` — `find_buf_index` from `graphics/renderlib/src/gpu_buffer.rs`
  (the identical copy lives in `src/renderer/staging_buf.rs`).
* `Blas` — the input validation and primitive-count computation of
  `RtAccel::new_blas` in `src/renderer/rt_accel.rs`.
* `Ubo` — the mapped-slot allocation and `set_mapped` copy of
  `graphics/rt_renderer/src/rt_ubo.rs`.
* `Tlas` — the per-BLAS instance-record loop of `RtAccel::new_tlas`.
* `AccelTrace` — the queue-submission traces of the one-shot command helpers
  (`single_time.rs`) as used by the acceleration-structure builds.
* `Staging` — a byte-level model of `GpuBuffer::new_initialized`
  (`graphics/renderlib/src/gpu_buffer.rs`).
* `Frame` — the per-frame state machine of `RtRenderer::draw_frame`
  (`graphics/rt_renderer/src/rt_renderer.rs`) together with
  `setup_sync_objects` (`graphics/renderlib/src/renderutils.rs`).

Machine integers are modelled as `Nat` with explicit reduction mod `2^32`
where the Rust source performs `u32` arithmetic.
-/

namespace Cubulous

/-- 2^32, the modulus of `u32` arithmetic. -/
def U32_MOD : Nat := 4294967296

/-- Reduce a natural number into the `u32` range. -/
def wrap32 (n : Nat) : Nat := n % U32_MOD

/-- Bitwise complement on 32 bits (`!x` on a Rust `u32`). -/
def not32 (n : Nat) : Nat := U32_MOD - 1 - wrap32 n

/-- Wrapping `u32` subtraction (release-mode `a - b` in Rust). -/
def wsub32 (a b : Nat) : Nat := wrap32 (wrap32 a + U32_MOD - wrap32 b)

namespace Sbt

/-- Function `align_u32` from rt_pipeline.rs lines 39-42:
`(val + (align - 1)) & !(align - 1)` in `u32` arithmetic. -/
def align_u32 (val align : Nat) : Nat :=
  wrap32 (val + wsub32 align 1) &&& not32 (wsub32 align 1)

/-- The specification's `align_up`: the round-up of `val` to the next
multiple of `align`, written with the standard division formula. -/
def align_up (val align : Nat) : Nat := ((val + align - 1) / align) * align

/-- Device limits consumed by `RtPipeline::new`
(`rt_properties.shader_group_handle_size` etc.). -/
structure RtProperties where
  shader_group_handle_size : Nat
  shader_group_handle_alignment : Nat
  shader_group_base_alignment : Nat

/-- The region sizes and strides computed by `RtPipeline::new`
(rt_pipeline.rs lines 145-187). -/
structure SbtLayout where
  handle_size : Nat
  raygen_group_size : Nat
  rmiss_group_size : Nat
  rhit_group_size : Nat
  rcall_group_size : Nat
  sbt_size : Nat
  raygen_stride : Nat
  rayhit_stride : Nat
  raymiss_stride : Nat

/-- Group counts fixed in rt_pipeline.rs lines 17-19. -/
def RAYHIT_COUNT : Nat := 1

/-- Miss-group count fixed in rt_pipeline.rs. -/
def RAYMISS_COUNT : Nat := 1

/-- Callable-group count fixed in rt_pipeline.rs. -/
def RAYCALL_COUNT : Nat := 0

/-- The layout computation of `RtPipeline::new`, parameterised by the
per-region group counts (the source instantiates them with the constants
above; the raygen region always has one group). Mirrors lines 149-158 and
172-187 of rt_pipeline.rs. -/
def layout (p : RtProperties) (miss_count hit_count call_count : Nat) : SbtLayout :=
  let handle_size := align_u32 p.shader_group_handle_size p.shader_group_handle_alignment
  let raygen_group_size := align_u32 handle_size p.shader_group_base_alignment
  let rmiss_group_size := align_u32 (wrap32 (handle_size * miss_count)) p.shader_group_base_alignment
  let rhit_group_size := align_u32 (wrap32 (handle_size * hit_count)) p.shader_group_base_alignment
  let rcall_group_size := align_u32 (wrap32 (handle_size * call_count)) p.shader_group_base_alignment
  { handle_size := handle_size
    raygen_group_size := raygen_group_size
    rmiss_group_size := rmiss_group_size
    rhit_group_size := rhit_group_size
    rcall_group_size := rcall_group_size
    sbt_size := raygen_group_size + rmiss_group_size + rhit_group_size + rcall_group_size
    raygen_stride := raygen_group_size
    rayhit_stride := handle_size
    raymiss_stride := handle_size }

/-- The layout actually built by the source, with its fixed group counts. -/
def rt_pipeline_layout (p : RtProperties) : SbtLayout :=
  layout p RAYMISS_COUNT RAYHIT_COUNT RAYCALL_COUNT

end Sbt

namespace MemIndex

/-- Model of `BitFlags::contains` on packed flag words: every requested bit is set. -/
def flags_contains (flags req : Nat) : Bool := flags &&& req == req

/-- Rust `i64 as u32` truncation (two's complement low 32 bits). -/
def i64_as_u32 (i : Int) : Nat := (i % (4294967296 : Int)).toNat

/-- The search loop of `find_buf_index` (gpu_buffer.rs lines 14-24): scan the
physical-device memory types in order and remember the first index whose bit
is set in `memory_type_bits` and whose flags contain the requested
properties; `idx` stays `-1` when no type matches. `types` is the
`memory_types` array truncated to `memory_type_count`. -/
def find_loop (req type_bits : Nat) : List Nat → Nat → Int
  | [], _ => -1
  | t :: rest, i =>
    if ((1 <<< i) &&& type_bits) > 0 && flags_contains t req then (i : Int)
    else find_loop req type_bits rest (i + 1)

/-- Function `find_buf_index` (gpu_buffer.rs lines 8-31, identically staging_buf.rs
lines 33-56): run the loop, then return `Ok(idx as u32)` whenever
`idx >= -1` — which holds for every `idx`, including the no-match value
`-1` — and `Err(())` otherwise. -/
def find_buf_index (types : List Nat) (req type_bits : Nat) : Except Unit Nat :=
  let idx := find_loop req type_bits types 0
  if idx ≥ -1 then Except.ok (i64_as_u32 idx) else Except.error ()

end MemIndex

namespace Blas

/-- The index types accepted by `new_blas` (rt_accel.rs lines 49-54),
selected by `mem::size_of::<T>()`. -/
inductive IndexType
  | uint8
  | uint16
  | uint32
deriving DecidableEq

/-- The geometry shape `new_blas` derives from its inputs: the index type,
`max_vertex = vertices.len() / 3 - 1` (line 58) and the primitive count
`indices.len() / 3` passed to both the size query (line 81) and the build
range (line 110). -/
structure BlasShape where
  index_type : IndexType
  max_vertex : Nat
  primitive_count : Nat
deriving DecidableEq

/-- The validation and shape computation of `RtAccel::new_blas`
(rt_accel.rs lines 48-61 and 107-116), as a function of the index element
size and the two input lengths. `none` models a halt: the
`assert_eq!(vertices.len() % 3, 0)` on line 48 failing, or the
`panic!("Invalid index type")` arm on line 53. No check of
`indices.len() % 3` appears anywhere in the function. -/
def new_blas_shape (index_size indices_len vertices_len : Nat) : Option BlasShape :=
  if vertices_len % 3 = 0 then
    match index_size with
    | 1 => some ⟨IndexType.uint8, vertices_len / 3 - 1, indices_len / 3⟩
    | 2 => some ⟨IndexType.uint16, vertices_len / 3 - 1, indices_len / 3⟩
    | 4 => some ⟨IndexType.uint32, vertices_len / 3 - 1, indices_len / 3⟩
    | _ => none
  else none

end Blas

namespace Ubo

/-- Constructor `RtUniformBuffer::<T>::new` allocates and maps, for each frame slot, a
buffer of `buffer_size = mem::size_of::<T>()` bytes (rt_ubo.rs line 28). -/
def slot_size (size_of_T : Nat) : Nat := size_of_T

/-- Semantics of `ptr::copy_from_nonoverlapping(src, count)` on a `*mut T`:
`count` is a number of `T` elements, so `count * size_of::<T>()` bytes are
written. -/
def copy_nonoverlapping_bytes (size_of_T count : Nat) : Nat := count * size_of_T

/-- Method `RtUniformBuffer::set_mapped` (rt_ubo.rs lines 59-61) calls
`copy_from_nonoverlapping(item.as_ptr(), mem::size_of::<T>())`, passing the
byte size of `T` where an element count is expected. -/
def set_mapped_bytes_written (size_of_T : Nat) : Nat :=
  copy_nonoverlapping_bytes size_of_T size_of_T

/-- Value of `mem::size_of::<RtPerFrameUbo>()`: two column-major 4×4 `f32` matrices
(rt_ubo.rs lines 12-16), 2 × 16 × 4 bytes. -/
def size_of_RtPerFrameUbo : Nat := 128

end Ubo

namespace Tlas

/-- One `vk::AccelerationStructureInstanceKHR` record as filled in by
`RtAccel::new_tlas` (rt_accel.rs lines 139-156): the identity 3×4 transform,
the packed custom-index/visibility-mask word `Packed24_8::new(0, 0xFF)`, the
packed SBT-offset/flags word `Packed24_8::new(0, MANUAL_CULL_DISABLE)`, and
the device address fetched from the BLAS structure handle. -/
structure InstanceRecord where
  transform_identity : Bool
  custom_index_and_mask : Nat
  offset_and_flags : Nat
  acceleration_structure_reference : Nat
deriving DecidableEq

/-- Packed24_8::new(idx, flags) packs a 24-bit value with an 8-bit value. -/
def packed24_8 (low24 high8 : Nat) : Nat := wrap32 (low24 % 16777216 + high8 * 16777216)

/-- Manual conversion of TRIANGLE_FACING_CULL_DISABLE (rt_accel.rs line 18). -/
def MANUAL_CULL_DISABLE : Nat := 1

/-- The null acceleration-structure handle (`vk::AccelerationStructureKHR::null()`). -/
def VK_NULL_HANDLE : Nat := 0

/-- The per-BLAS loop of `RtAccel::new_tlas` (rt_accel.rs lines 136-173),
as a function of the device's address query `addr_of` (the value
`get_acceleration_structure_device_address` reports for a structure handle)
and the list of BLAS structure handles. The host code performs no check of
any handle: every driver call in the loop is unwrapped on success paths that
do not depend on the handle value, so the loop unconditionally produces one
instance record per BLAS referencing `addr_of` of its handle. `Except` is
the return shape demanded by the claim; the error case is unreachable. -/
def new_tlas_instances (addr_of : Nat -> Nat) (handles : List Nat) :
    Except Unit (List InstanceRecord) :=
  Except.ok (handles.map fun h =>
    { transform_identity := true
      custom_index_and_mask := packed24_8 0 255
      offset_and_flags := packed24_8 0 MANUAL_CULL_DISABLE
      acceleration_structure_reference := addr_of h })

end Tlas

namespace AccelTrace

/-- Commands recorded into one-shot command buffers by the
acceleration-structure build path. -/
inductive Cmd
  | copyBuf
  | buildBlas (b : Nat)
  | buildTlas (refs : List Nat)
deriving DecidableEq

/-- Events the host issues to the device queue, in program order. -/
inductive Ev
  | submit (c : Cmd)
  | waitIdle
deriving DecidableEq

/-- Trace of `end_single_time_commands` (single_time.rs lines 20-32):
`queue_submit` followed immediately by `queue_wait_idle`, before the
function returns. Command-buffer allocation, begin/end and free do not
touch the queue and are omitted. -/
def single_time (c : Cmd) : List Ev := [Ev.submit c, Ev.waitIdle]

/-- Queue trace of `GpuBuffer::new_initialized`: its staging upload records
one `cmd_copy_buffer` in a one-shot command buffer (`copy_buffer`,
gpu_buffer.rs lines 33-49). -/
def new_initialized_trace : List Ev := single_time Cmd.copyBuf

/-- Queue trace of `RtAccel::new_blas` building the BLAS with handle `b`:
index upload, vertex upload, then the one-shot build submission
(rt_accel.rs lines 34-123). -/
def new_blas_trace (b : Nat) : List Ev :=
  new_initialized_trace ++ new_initialized_trace ++ single_time (Cmd.buildBlas b)

/-- Queue trace of `RtAccel::new_tlas` over the BLAS handles `refs`: one
instance-buffer upload per referenced BLAS (rt_accel.rs line 158), then the
one-shot TLAS build submission (lines 218-223). -/
def new_tlas_trace (refs : List Nat) : List Ev :=
  (refs.map fun _ => new_initialized_trace).flatten ++ single_time (Cmd.buildTlas refs)

/-- A host-side call sequence of build operations. -/
inductive Call
  | blas (b : Nat)
  | tlas (refs : List Nat)
deriving DecidableEq

/-- The queue trace of one call. -/
def callTrace : Call → List Ev
  | Call.blas b => new_blas_trace b
  | Call.tlas refs => new_tlas_trace refs

/-- The queue trace of a call sequence: calls are synchronous, so their
traces concatenate in program order. -/
def progTrace (cs : List Call) : List Ev := (cs.map callTrace).flatten

/-- Device-side completion state while consuming a queue trace. `pending`
holds BLAS builds submitted but not yet completed, `built` those completed
on the device. `ok` stays true as long as every TLAS build submission so
far happened with all of its referenced BLAS builds already completed. -/
structure Dev where
  pending : List Nat
  built : List Nat
  ok : Bool
deriving DecidableEq

/-- One device step per queue event. A `waitIdle` completes everything
pending; a TLAS build submission checks the ordering condition at the
moment of submission. -/
def step (d : Dev) : Ev → Dev
  | Ev.submit Cmd.copyBuf => d
  | Ev.submit (Cmd.buildBlas b) => { d with pending := d.pending ++ [b] }
  | Ev.submit (Cmd.buildTlas refs) =>
      { d with ok := d.ok && refs.all fun r => d.built.contains r }
  | Ev.waitIdle => { d with pending := [], built := d.built ++ d.pending }

/-- Run a queue trace from a device state. -/
def run (d : Dev) (tr : List Ev) : Dev := tr.foldl step d

/-- The initial device state: nothing submitted, nothing built. -/
def initDev : Dev := { pending := [], built := [], ok := true }

/-- Well-formed call sequences: each `new_tlas` call is invoked on
already-returned BLAS values, i.e. every handle it references was built by
an earlier `new_blas` call (`done` accumulates those). This is exactly the
call pattern of `create_acceleration_structures` (rt_accel.rs line 274). -/
def wf (done : List Nat) : List Call → Bool
  | [] => true
  | Call.blas b :: rest => wf (b :: done) rest
  | Call.tlas refs :: rest => (refs.all fun r => done.contains r) && wf done rest

end AccelTrace

/-- In-place update of the i-th element of a list, used to model writes to
an indexed resource table. -/
def listModify {α : Type} : List α → Nat → (α → α) → List α
  | [], _, _ => []
  | a :: rest, 0, f => f a :: rest
  | a :: rest, Nat.succ n, f => a :: listModify rest n f

namespace Staging

/-- A device buffer: its memory contents byte by byte (`none` =
uninitialized or freed memory), the `item_count` field of `GpuBuffer`, and
whether `destroy_buffer`/`free_memory` has been called on it. -/
structure Buffer where
  bytes : List (Option Nat)
  item_count : Nat
  freed : Bool
deriving DecidableEq

/-- Device state: the buffer table (a buffer's id is its index, in creation
order) and the copy commands submitted to the queue but not yet executed.
A copy command is `(src, dst, size)`. -/
structure Dev where
  buffers : List Buffer
  pending : List (Nat × Nat × Nat)
deriving DecidableEq

/-- Default buffer for out-of-range lookups. -/
def emptyBuffer : Buffer := { bytes := [], item_count := 0, freed := true }

/-- Look up a buffer by id. -/
def getBuf (bufs : List Buffer) (i : Nat) : Buffer := bufs.getD i emptyBuffer

/-- Buffer creation (`create_buffer` in gpu_buffer.rs lines 51-76 /
`GpuBuffer::new` lines 85-113): allocate `size` bytes of uninitialized
memory; returns the new state and the new buffer's id. The fresh
`GpuBuffer` starts with `item_count: 0` (line 111). -/
def create_buffer (d : Dev) (size : Nat) : Dev × Nat :=
  ({ d with buffers := d.buffers ++
      [{ bytes := List.replicate size none, item_count := 0, freed := false }] },
    d.buffers.length)

/-- The map/copy/unmap block of `new_initialized` (gpu_buffer.rs lines
129-138): write `data` into the buffer starting at offset 0. -/
def map_write (d : Dev) (id : Nat) (data : List Nat) : Dev :=
  { d with buffers := listModify d.buffers id fun b =>
      { b with bytes := data.map some ++ b.bytes.drop data.length } }

/-- Record a buffer-to-buffer copy command (`cmd_copy_buffer`, copy region
offset 0, length `size`) and submit it (`queue_submit` inside
`end_single_time_commands`). -/
def cmd_copy_buffer (d : Dev) (src dst size : Nat) : Dev :=
  { d with pending := d.pending ++ [(src, dst, size)] }

/-- Device-side execution of one copy command. -/
def do_copy (bufs : List Buffer) : Nat × Nat × Nat → List Buffer
  | (src, dst, size) =>
    let data := (getBuf bufs src).bytes.take size
    listModify bufs dst fun b => { b with bytes := data ++ b.bytes.drop size }

/-- Model of `queue_wait_idle` (single_time.rs line 29): every submitted
command finishes before the call returns. -/
def queue_wait_idle (d : Dev) : Dev :=
  { buffers := d.pending.foldl do_copy d.buffers, pending := [] }

/-- Whole `copy_buffer` helper (gpu_buffer.rs lines 33-49):
`begin_single_time_commands`, one `cmd_copy_buffer`, then
`end_single_time_commands` = submit + wait-idle. -/
def copy_buffer (d : Dev) (src dst size : Nat) : Dev :=
  queue_wait_idle (cmd_copy_buffer d src dst size)

/-- The `device_buf.item_count = item_count` assignment (line 143). -/
def set_item_count (d : Dev) (id count : Nat) : Dev :=
  { d with buffers := listModify d.buffers id fun b => { b with item_count := count } }

/-- Staging-buffer teardown (`destroy_buffer` + `free_memory`, lines
144-147): the memory contents become unspecified. -/
def destroy_buffer (d : Dev) (id : Nat) : Dev :=
  { d with buffers := listModify d.buffers id fun b =>
      { bytes := List.replicate b.bytes.length none
        item_count := b.item_count
        freed := true } }

/-- `GpuBuffer::new_initialized` (gpu_buffer.rs lines 115-150) over items
serialized to `item_size` bytes each: compute `data_size`, create the
host-visible staging buffer, map-write the item bytes, create the
device-local destination, copy staging to destination through a one-shot
command buffer (synchronous: wait-idle inside), set the destination's
`item_count`, destroy the staging buffer. Returns the destination id. -/
def new_initialized (d : Dev) (item_size : Nat) (items : List (List Nat)) : Dev × Nat :=
  let data_size := item_size * items.length
  let r1 := create_buffer d data_size
  let d2 := map_write r1.1 r1.2 items.flatten
  let r3 := create_buffer d2 data_size
  let d4 := copy_buffer r3.1 r1.2 r3.2 data_size
  let d5 := set_item_count d4 r3.2 items.length
  let d6 := destroy_buffer d5 r1.2
  (d6, r3.2)

/-- Read a buffer back through a second staging copy: create a fresh
host-visible buffer, copy `size` bytes into it, map-read its contents. -/
def read_back (d : Dev) (id size : Nat) : List (Option Nat) :=
  let r1 := create_buffer d size
  let d2 := copy_buffer r1.1 id r1.2 size
  (getBuf d2.buffers r1.2).bytes

end Staging

namespace Frame

/-- MAX_FRAMES_IN_FLIGHT (rt_renderer.rs line 19). -/
def MAX_FRAMES_IN_FLIGHT : Nat := 2

/-- Host-visible fence state: signaled, or pending on the GPU work batch
with the given submission number. -/
inductive FenceStatus
  | signaled
  | pending (submission : Nat)
deriving DecidableEq

/-- One frame slot: its in-flight fence and the submission number of the
most recent `queue_submit` that passed this slot's fence. -/
structure Slot where
  fence : FenceStatus
  last_submission : Option Nat
deriving DecidableEq

/-- The renderer state touched by `draw_frame`:
`current_frame` (rt_renderer.rs line 37), the frame slots, the generation
counter of the canvas/swapchain images (bumped on each recreation, the old
generation being destroyed), and the generation of the canvas image views
the per-frame descriptor sets were last written against
(`create_per_frame_descriptor_sets`, rt_descriptor.rs lines 55-153, called
only from `RtRenderer::new`). -/
structure RtState where
  current_frame : Nat
  slots : List Slot
  canvas_generation : Nat
  descriptor_canvas_generation : Nat
  next_submission : Nat
deriving DecidableEq

/-- `setup_sync_objects` (renderutils.rs lines 5-23): each in-flight fence
is created with `FenceCreateFlags::SIGNALED` (line 8), and no submission
has used it yet. -/
def setup_sync_objects (max_frames : Nat) : List Slot :=
  List.replicate max_frames { fence := FenceStatus.signaled, last_submission := none }

/-- The state after `RtRenderer::new`: frame index 0, freshly created sync
objects, canvas generation 0, descriptor sets written once against
generation 0. -/
def rtInit : RtState :=
  { current_frame := 0
    slots := setup_sync_objects MAX_FRAMES_IN_FLIGHT
    canvas_generation := 0
    descriptor_canvas_generation := 0
    next_submission := 0 }

/-- Outcome of `acquire_next_image` (rt_renderer.rs lines 268-276): success
with some image index, `ERROR_OUT_OF_DATE_KHR`, or any other error (the
`panic!` arm). -/
inductive AcquireRes
  | success
  | outOfDate
  | deviceError
deriving DecidableEq

/-- Outcome of `queue_present` (lines 294-301): success,
`ERROR_OUT_OF_DATE_KHR | SUBOPTIMAL_KHR`, or any other error. -/
inductive PresentRes
  | success
  | outOfDateOrSuboptimal
  | deviceError
deriving DecidableEq

/-- `wait_for_fences` on the current slot's fence (line 266): returns only
once the fence is signaled, whatever GPU work that takes. -/
def wait_fence (s : RtState) (i : Nat) : RtState :=
  { s with slots := listModify s.slots i fun sl =>
      { sl with fence := FenceStatus.signaled } }

/-- `device_wait_idle` (cleanup_swap_chain, line 219): all submitted work
completes, so every pending fence becomes signaled. -/
def device_wait_idle (s : RtState) : RtState :=
  { s with slots := s.slots.map fun sl => { sl with fence := FenceStatus.signaled } }

/-- `recreate_swap_chain` (rt_renderer.rs lines 211-216): drain the device,
destroy the render target and canvas of the current generation, build new
ones. The body contains no descriptor update of any kind, so
`descriptor_canvas_generation` is untouched. -/
def recreate_swap_chain (s : RtState) : RtState :=
  let s1 := device_wait_idle s
  { s1 with canvas_generation := s1.canvas_generation + 1 }

/-- `reset_fences` (line 278) followed by `queue_submit` with the slot's
fence (lines 289-291): the fence leaves the signaled state and becomes
pending on the fresh submission. -/
def submit_frame (s : RtState) (i : Nat) : RtState :=
  { s with
    slots := listModify s.slots i fun _ =>
      { fence := FenceStatus.pending s.next_submission
        last_submission := some s.next_submission }
    next_submission := s.next_submission + 1 }

/-- The unconditional frame-index line at the end of `draw_frame`
(line 304): `self.current_frame = (current_frame + 1) % MAX_FRAMES_IN_FLIGHT`. -/
def advance_frame (s : RtState) : RtState :=
  { s with current_frame := (s.current_frame + 1) % MAX_FRAMES_IN_FLIGHT }

/-- One tick of `RtRenderer::draw_frame` (rt_renderer.rs lines 224-305),
parameterised by the surface outcomes the driver reports at acquire and at
present. `none` models the `panic!` arms for unexpected device errors.
On `ERROR_OUT_OF_DATE_KHR` at acquire the source runs
`self.recreate_swap_chain(); return` (line 273) — an early return that
skips both the submission and the frame-index line. On a stale present the
source recreates and then falls through to the frame-index line. -/
def draw_frame (s : RtState) (acq : AcquireRes) (pres : PresentRes) : Option RtState :=
  let s1 := wait_fence s s.current_frame
  match acq with
  | AcquireRes.outOfDate => some (recreate_swap_chain s1)
  | AcquireRes.deviceError => none
  | AcquireRes.success =>
    let s2 := submit_frame s1 s.current_frame
    match pres with
    | PresentRes.deviceError => none
    | PresentRes.outOfDateOrSuboptimal => some (advance_frame (recreate_swap_chain s2))
    | PresentRes.success => some (advance_frame s2)

/-- Run a sequence of frame ticks. -/
def run_ticks (s : RtState) : List (AcquireRes × PresentRes) → Option RtState
  | [] => some s
  | (a, p) :: rest =>
    match draw_frame s a p with
    | none => none
    | some s1 => run_ticks s1 rest

/-- The frame index observed at the start of each tick of a run. -/
def observe_frames (s : RtState) : List (AcquireRes × PresentRes) → Option (List Nat)
  | [] => some []
  | (a, p) :: rest =>
    match draw_frame s a p with
    | none => none
    | some s1 => (observe_frames s1 rest).map fun l => s.current_frame :: l

/-- The fence invariant: every slot's fence is either signaled or pending
on that slot's own most recent submission. -/
def fence_inv (s : RtState) : Prop :=
  ∀ sl ∈ s.slots, sl.fence = FenceStatus.signaled ∨
    ∃ n, sl.fence = FenceStatus.pending n ∧ sl.last_submission = some n

end Frame

/-! ### Theorems -/

theorem Sbt.mask_and_eq_div_mul (x k : Nat) (hk : k ≤ 32) (hx : x < 2 ^ 32) :
    x &&& (2 ^ 32 - 2 ^ k) = x / 2 ^ k * 2 ^ k := by
  have hmask : 2 ^ 32 - 2 ^ k = (2 ^ (32 - k) - 1) <<< k := by
    rw [Nat.shiftLeft_eq, Nat.sub_mul, one_mul, ← pow_add]
    rw [Nat.sub_add_cancel hk]
  have hrhs : x / 2 ^ k * 2 ^ k = (x >>> k) <<< k := by
    rw [Nat.shiftLeft_eq, Nat.shiftRight_eq_div_pow]
  rw [hmask, hrhs]
  apply Nat.eq_of_testBit_eq
  intro i
  rw [Nat.testBit_land, Nat.testBit_shiftLeft, Nat.testBit_shiftLeft,
    Nat.testBit_two_pow_sub_one]
  by_cases hik : k ≤ i
  · have hge : (decide (i ≥ k)) = true := by simp [ge_iff_le, hik]
    have hshift : (x >>> k).testBit (i - k) = x.testBit (k + (i - k)) :=
      Nat.testBit_shiftRight x
    rw [hge, hshift, Nat.add_sub_cancel' hik]
    by_cases hi32 : i < 32
    · have hd : (decide (i - k < 32 - k)) = true := by
        simp only [decide_eq_true_eq]
        omega
      rw [hd]
      simp
    · have hxi : x.testBit i = false := by
        apply Nat.testBit_lt_two_pow
        calc x < 2 ^ 32 := hx
        _ ≤ 2 ^ i := Nat.pow_le_pow_right (by norm_num) (by omega)
      rw [hxi]
      simp
  · simp [ge_iff_le, hik]

theorem Sbt.align_u32_eq_align_up (val k : Nat) (hk : k < 32)
    (hval : val + 2 ^ k ≤ 2 ^ 32) :
    Sbt.align_u32 val (2 ^ k) = Sbt.align_up val (2 ^ k) := by
  have hk1 : 1 ≤ 2 ^ k := Nat.one_le_two_pow
  have hklt : 2 ^ k < 2 ^ 32 := Nat.pow_lt_pow_right (by norm_num) hk
  have hsub : wsub32 (2 ^ k) 1 = 2 ^ k - 1 := by
    unfold wsub32 wrap32 U32_MOD
    have h1 : (2 ^ k) % 4294967296 = 2 ^ k := Nat.mod_eq_of_lt hklt
    have h2 : (1 : Nat) % 4294967296 = 1 := by norm_num
    rw [h1, h2]
    have h3 : 2 ^ k + 4294967296 - 1 = (2 ^ k - 1) + 4294967296 := by omega
    rw [h3, Nat.add_mod_right]
    exact Nat.mod_eq_of_lt (by omega)
  have hnot : not32 (2 ^ k - 1) = 2 ^ 32 - 2 ^ k := by
    unfold not32 wrap32 U32_MOD
    have h1 : (2 ^ k - 1) % 4294967296 = 2 ^ k - 1 := Nat.mod_eq_of_lt (by omega)
    rw [h1]
    omega
  have hwrap : wrap32 (val + (2 ^ k - 1)) = val + 2 ^ k - 1 := by
    unfold wrap32 U32_MOD
    have : val + (2 ^ k - 1) = val + 2 ^ k - 1 := by omega
    rw [this]
    exact Nat.mod_eq_of_lt (by omega)
  unfold Sbt.align_u32
  rw [hsub, hnot, hwrap]
  have h32 : (2 : Nat) ^ 32 = 4294967296 := by norm_num
  rw [h32] at hval ⊢
  rw [show (4294967296 : Nat) = 2 ^ 32 by norm_num]
  rw [Sbt.mask_and_eq_div_mul (val + 2 ^ k - 1) k (le_of_lt hk) (by omega)]
  unfold Sbt.align_up
  rfl

theorem Sbt.align_up_dvd (val align : Nat) : align ∣ Sbt.align_up val align :=
  dvd_mul_left align _

theorem Sbt.align_up_ge (val align : Nat) (h : 0 < align) : val ≤ Sbt.align_up val align := by
  unfold Sbt.align_up
  rw [Nat.mul_comm]
  have h1 := Nat.div_add_mod (val + align - 1) align
  have h2 : (val + align - 1) % align < align := Nat.mod_lt _ h
  omega

theorem MemIndex.find_loop_ge_neg_one (req type_bits : Nat) :
    ∀ (types : List Nat) (i : Nat), MemIndex.find_loop req type_bits types i ≥ -1 := by
  intro types
  induction types with
  | nil => intro i; simp [MemIndex.find_loop]
  | cons t rest ih =>
    intro i
    simp only [MemIndex.find_loop]
    by_cases h : (((1 <<< i) &&& type_bits) > 0 && MemIndex.flags_contains t req) = true
    · simp [h]; omega
    · simp [h]; exact ih (i + 1)

/-- Claim C3: the spec says that when no memory type both matches the
requirement's type bits and contains the requested property flags,
`find_buf_index` returns `Err` and the creating call halts. The code does
not: because the final guard is `idx >= -1` — true for every value the loop
can leave in `idx`, including the no-match sentinel `-1` — `find_buf_index`
never returns `Err`; on no-match it returns `Ok((-1i64) as u32)` =
`Ok(4294967295)`, which the caller unwraps and passes to `allocate_memory`
as a memory-type index. The concrete conjunct evaluates the no-match input
with one memory type whose flags `2` do not contain the requested flags
`1`. -/
theorem C3_find_buf_index_never_errs :
    (∀ (types : List Nat) (req type_bits : Nat),
      (MemIndex.find_buf_index types req type_bits).isOk = true) ∧
    MemIndex.find_buf_index [2] 1 1 = Except.ok 4294967295 := by
  constructor
  · intro types req type_bits
    unfold MemIndex.find_buf_index
    have h := MemIndex.find_loop_ge_neg_one req type_bits types 0
    simp only [ge_iff_le, h, if_pos]
    rfl
  · rfl

/-- Claim C8 counterexample: `new_blas` invoked with 4 indices (not a
multiple of 3) and a valid 24-float vertex array does not fail or assert;
it proceeds with the truncated primitive count `4 / 3 = 1`. -/
theorem C8_counterexample :
    (4 % 3 ≠ 0) ∧
    Blas.new_blas_shape 1 4 24 =
      some { index_type := Blas.IndexType.uint8, max_vertex := 7, primitive_count := 1 } := by
  decide

/-- Claim C8 (amended): `new_blas` asserts that the vertex array's element
count is a multiple of 3 (`assert_eq!(vertices.len() % 3, 0)`); it performs
no check on the index array's element count, and for any index count —
multiple of 3 or not — proceeds with primitive count `indices.len() / 3`. -/
theorem C8_vertex_multiple_enforced :
    (∀ (index_size indices_len vertices_len : Nat), vertices_len % 3 ≠ 0 →
      Blas.new_blas_shape index_size indices_len vertices_len = none) ∧
    (∀ (indices_len vertices_len : Nat), vertices_len % 3 = 0 →
      Blas.new_blas_shape 1 indices_len vertices_len =
        some { index_type := Blas.IndexType.uint8,
               max_vertex := vertices_len / 3 - 1,
               primitive_count := indices_len / 3 }) := by
  constructor
  · intro index_size indices_len vertices_len h
    simp [Blas.new_blas_shape, h]
  · intro indices_len vertices_len h
    simp [Blas.new_blas_shape, h]

/-- Claim C8 witness: the amended theorem applied at concrete inputs. -/
theorem C8_witness :
    Blas.new_blas_shape 5 9 10 = none ∧
    Blas.new_blas_shape 1 9 24 =
      some { index_type := Blas.IndexType.uint8, max_vertex := 7, primitive_count := 3 } := by
  constructor
  · exact C8_vertex_multiple_enforced.1 5 9 10 (by decide)
  · have h := C8_vertex_multiple_enforced.2 9 24 (by decide)
    simpa using h

/-- Claim C9: the spec expects `set_mapped` with a one-element slice to
write at most `size_of::<T>()` bytes into the slot allocated with
`buffer_size = size_of::<T>()`. The code passes `mem::size_of::<T>()` to
`copy_from_nonoverlapping` as the element count, so it writes
`size_of::<T>() * size_of::<T>()` bytes: for every `T` with size at least
2, the copy extends past the slot's allocation. For `RtPerFrameUbo`
(128 bytes), 16384 bytes are written into a 128-byte mapping. -/
theorem C9_set_mapped_overflows :
    (∀ (size_of_T : Nat), 2 ≤ size_of_T →
      Ubo.slot_size size_of_T < Ubo.set_mapped_bytes_written size_of_T) ∧
    Ubo.set_mapped_bytes_written Ubo.size_of_RtPerFrameUbo = 16384 ∧
    Ubo.slot_size Ubo.size_of_RtPerFrameUbo = 128 := by
  refine ⟨?_, by decide, by decide⟩
  intro sz hs
  unfold Ubo.slot_size Ubo.set_mapped_bytes_written Ubo.copy_nonoverlapping_bytes
  have h1 : sz * 2 ≤ sz * sz := Nat.mul_le_mul_left sz hs
  omega

/-- Claim C9 witness: the overflow bound applied at the concrete
`RtPerFrameUbo` size. -/
theorem C9_witness :
    Ubo.slot_size 128 < Ubo.set_mapped_bytes_written 128 :=
  C9_set_mapped_overflows.1 128 (by decide)

/-- Claim C6 counterexample: `new_tlas` invoked on a BLAS list containing
the null structure handle does not fail or assert — it returns the TLAS
instance records, the record referencing whatever device address the
address query derives from the null handle (here a query mapping handle
`h` to address `4096 + h`). -/
theorem C6_counterexample :
    Tlas.new_tlas_instances (fun h => 4096 + h) [Tlas.VK_NULL_HANDLE] =
      Except.ok [{ transform_identity := true
                   custom_index_and_mask := Tlas.packed24_8 0 255
                   offset_and_flags := Tlas.packed24_8 0 Tlas.MANUAL_CULL_DISABLE
                   acceleration_structure_reference := 4096 }] ∧
    (Tlas.new_tlas_instances (fun h => 4096 + h) [Tlas.VK_NULL_HANDLE]).isOk = true := by
  constructor
  · rfl
  · rfl

/-- Claim C6 (amended): `new_tlas` performs no validation of the BLAS
structure handles. For every address query and every handle list — null or
unbuilt handles included — it proceeds and returns one instance record per
handle whose acceleration-structure reference is the address the query
reports for that handle. (In the repository every `RtBlas` reaching
`new_tlas` was produced by `new_blas`, so non-null handles are guaranteed
only by construction, not by any check.) -/
theorem C6_no_handle_validation :
    ∀ (addr_of : Nat → Nat) (handles : List Nat),
      Tlas.new_tlas_instances addr_of handles =
        Except.ok (handles.map fun h =>
          { transform_identity := true
            custom_index_and_mask := Tlas.packed24_8 0 255
            offset_and_flags := Tlas.packed24_8 0 Tlas.MANUAL_CULL_DISABLE
            acceleration_structure_reference := addr_of h }) :=
  fun _ _ => rfl

/-- Claim C4: the SBT layout computes `stride = align_up(handle_size,
handle_alignment)` and each region size as `align_up(stride * count,
base_alignment)`; the total buffer size is the sum of the four region
sizes and the raygen region's stride equals its own region size. Part one:
the code's bit-twiddling `align_u32` agrees with the arithmetic round-up
`align_up` for every power-of-two alignment in `u32` range. Part two: the
structural equations of the layout, for all device properties and group
counts. Part three: the claim's concrete instance — handle_size=32,
handle_alignment=32, base_alignment=64, giving stride 32, one-group raygen
region size 64 (stride 64 = its own size), and a 3-hit-group region size
`align_up(96, 64) = 128` with per-entry stride 32. -/
theorem C4_sbt_layout_law :
    (∀ (val k : Nat), k < 32 → val + 2 ^ k ≤ 2 ^ 32 →
      Sbt.align_u32 val (2 ^ k) = Sbt.align_up val (2 ^ k)) ∧
    (∀ (p : Sbt.RtProperties) (m h c : Nat),
      (Sbt.layout p m h c).sbt_size =
        (Sbt.layout p m h c).raygen_group_size + (Sbt.layout p m h c).rmiss_group_size +
          (Sbt.layout p m h c).rhit_group_size + (Sbt.layout p m h c).rcall_group_size ∧
      (Sbt.layout p m h c).raygen_stride = (Sbt.layout p m h c).raygen_group_size ∧
      (Sbt.layout p m h c).handle_size =
        Sbt.align_u32 p.shader_group_handle_size p.shader_group_handle_alignment ∧
      (Sbt.layout p m h c).raygen_group_size =
        Sbt.align_u32 (Sbt.layout p m h c).handle_size p.shader_group_base_alignment ∧
      (Sbt.layout p m h c).rmiss_group_size =
        Sbt.align_u32 (wrap32 ((Sbt.layout p m h c).handle_size * m))
          p.shader_group_base_alignment ∧
      (Sbt.layout p m h c).rhit_group_size =
        Sbt.align_u32 (wrap32 ((Sbt.layout p m h c).handle_size * h))
          p.shader_group_base_alignment ∧
      (Sbt.layout p m h c).rcall_group_size =
        Sbt.align_u32 (wrap32 ((Sbt.layout p m h c).handle_size * c))
          p.shader_group_base_alignment ∧
      (Sbt.layout p m h c).rayhit_stride = (Sbt.layout p m h c).handle_size ∧
      (Sbt.layout p m h c).raymiss_stride = (Sbt.layout p m h c).handle_size) ∧
    ((Sbt.layout ⟨32, 32, 64⟩ 1 3 0).handle_size = 32 ∧
      (Sbt.layout ⟨32, 32, 64⟩ 1 3 0).raygen_group_size = 64 ∧
      (Sbt.layout ⟨32, 32, 64⟩ 1 3 0).raygen_stride = 64 ∧
      (Sbt.layout ⟨32, 32, 64⟩ 1 3 0).rhit_group_size = 128 ∧
      (Sbt.layout ⟨32, 32, 64⟩ 1 3 0).rayhit_stride = 32 ∧
      (Sbt.layout ⟨32, 32, 64⟩ 1 3 0).sbt_size = 256) := by
  refine ⟨Sbt.align_u32_eq_align_up, ?_, by decide⟩
  intro p m h c
  exact ⟨rfl, rfl, rfl, rfl, rfl, rfl, rfl, rfl, rfl⟩

/-- Claim C4 witness: the align-up agreement applied at the claim's
concrete 3-hit-group instance, `align_up(96, 64) = 128`. -/
theorem C4_witness :
    Sbt.align_u32 96 (2 ^ 6) = Sbt.align_up 96 (2 ^ 6) ∧
    Sbt.align_up 96 (2 ^ 6) = 128 :=
  ⟨C4_sbt_layout_law.1 96 6 (by decide) (by decide), by decide⟩

theorem listModify_mem {α : Type} (l : List α) (i : Nat) (f : α → α) (b : α)
    (hb : b ∈ listModify l i f) : b ∈ l ∨ ∃ a, a ∈ l ∧ b = f a := by
  induction l generalizing i with
  | nil => simp [listModify] at hb
  | cons a rest ih =>
    cases i with
    | zero =>
      simp only [listModify, List.mem_cons] at hb
      rcases hb with h | h
      · exact Or.inr ⟨a, by simp, h⟩
      · exact Or.inl (by simp [h])
    | succ n =>
      simp only [listModify, List.mem_cons] at hb
      rcases hb with h | h
      · exact Or.inl (by simp [h])
      · rcases ih n h with h1 | ⟨a1, ha1, hba⟩
        · exact Or.inl (by simp [h1])
        · exact Or.inr ⟨a1, by simp [ha1], hba⟩

theorem Frame.fence_inv_wait (s : Frame.RtState) (i : Nat) (h : Frame.fence_inv s) :
    Frame.fence_inv (Frame.wait_fence s i) := by
  intro sl hsl
  simp only [Frame.wait_fence] at hsl
  rcases listModify_mem _ _ _ _ hsl with h1 | ⟨a, _, rfl⟩
  · exact h sl h1
  · exact Or.inl rfl

theorem Frame.fence_inv_device_wait_idle (s : Frame.RtState) :
    Frame.fence_inv (Frame.device_wait_idle s) := by
  intro sl hsl
  simp only [Frame.device_wait_idle, List.mem_map] at hsl
  rcases hsl with ⟨a, _, rfl⟩
  exact Or.inl rfl

theorem Frame.fence_inv_recreate (s : Frame.RtState) :
    Frame.fence_inv (Frame.recreate_swap_chain s) := by
  intro sl hsl
  exact Frame.fence_inv_device_wait_idle s sl hsl

theorem Frame.fence_inv_submit (s : Frame.RtState) (i : Nat) (h : Frame.fence_inv s) :
    Frame.fence_inv (Frame.submit_frame s i) := by
  intro sl hsl
  simp only [Frame.submit_frame] at hsl
  rcases listModify_mem _ _ _ _ hsl with h1 | ⟨a, _, rfl⟩
  · exact h sl h1
  · exact Or.inr ⟨s.next_submission, rfl, rfl⟩

theorem Frame.fence_inv_advance (s : Frame.RtState) (h : Frame.fence_inv s) :
    Frame.fence_inv (Frame.advance_frame s) := by
  intro sl hsl
  exact h sl hsl

theorem Frame.fence_inv_draw (s : Frame.RtState) (acq : Frame.AcquireRes)
    (pres : Frame.PresentRes) (s2 : Frame.RtState)
    (h : Frame.draw_frame s acq pres = some s2) (hs : Frame.fence_inv s) :
    Frame.fence_inv s2 := by
  cases acq with
  | outOfDate =>
    simp only [Frame.draw_frame, Option.some.injEq] at h
    subst h
    exact Frame.fence_inv_recreate _
  | deviceError => simp [Frame.draw_frame] at h
  | success =>
    cases pres with
    | deviceError => simp [Frame.draw_frame] at h
    | outOfDateOrSuboptimal =>
      simp only [Frame.draw_frame, Option.some.injEq] at h
      subst h
      exact Frame.fence_inv_advance _ (Frame.fence_inv_recreate _)
    | success =>
      simp only [Frame.draw_frame, Option.some.injEq] at h
      subst h
      exact Frame.fence_inv_advance _
        (Frame.fence_inv_submit _ _ (Frame.fence_inv_wait _ _ hs))

theorem Frame.fence_inv_run (ticks : List (Frame.AcquireRes × Frame.PresentRes)) :
    ∀ (s0 s : Frame.RtState), Frame.fence_inv s0 →
      Frame.run_ticks s0 ticks = some s → Frame.fence_inv s := by
  induction ticks with
  | nil =>
    intro s0 s h0 hrun
    simp only [Frame.run_ticks, Option.some.injEq] at hrun
    subst hrun
    exact h0
  | cons t rest ih =>
    intro s0 s h0 hrun
    rcases t with ⟨a, p⟩
    simp only [Frame.run_ticks] at hrun
    cases hdf : Frame.draw_frame s0 a p with
    | none => rw [hdf] at hrun; cases hrun
    | some s1 =>
      rw [hdf] at hrun
      exact ih s1 s (Frame.fence_inv_draw s0 a p s1 hdf h0) hrun

/-- Claim C2 counterexample: on a tick whose `acquire_next_image` reports
`ERROR_OUT_OF_DATE_KHR`, `draw_frame` recreates the swapchain and returns
early (rt_renderer.rs line 273), skipping the frame-index line: the stored
frame index stays 0 instead of advancing to `(0 + 1) % 2 = 1`. -/
theorem C2_counterexample :
    ¬ ((Frame.draw_frame Frame.rtInit Frame.AcquireRes.outOfDate
          Frame.PresentRes.success).map Frame.RtState.current_frame =
        some ((Frame.rtInit.current_frame + 1) % Frame.MAX_FRAMES_IN_FLIGHT)) := by
  decide

/-- Claim C2 (amended): the stored frame index after a tick equals
(index before + 1) mod MAX_FRAMES_IN_FLIGHT for every tick whose acquire
succeeded — including ticks whose present reported the surface stale and
recreated the swapchain — but a tick whose acquire reports the surface out
of date returns early after recreating and leaves the frame index
unchanged. With N=2 and no staleness, five consecutive ticks observe the
frame-index sequence 0,1,0,1,0. -/
theorem C2_frame_index_advance :
    (∀ (s : Frame.RtState) (pres : Frame.PresentRes) (s2 : Frame.RtState),
      Frame.draw_frame s Frame.AcquireRes.success pres = some s2 →
      s2.current_frame = (s.current_frame + 1) % Frame.MAX_FRAMES_IN_FLIGHT) ∧
    (∀ (s : Frame.RtState) (pres : Frame.PresentRes) (s2 : Frame.RtState),
      Frame.draw_frame s Frame.AcquireRes.outOfDate pres = some s2 →
      s2.current_frame = s.current_frame) ∧
    Frame.observe_frames Frame.rtInit
        (List.replicate 5 (Frame.AcquireRes.success, Frame.PresentRes.success)) =
      some [0, 1, 0, 1, 0] := by
  refine ⟨?_, ?_, by decide⟩
  · intro s pres s2 h
    cases pres with
    | success =>
      simp only [Frame.draw_frame, Option.some.injEq] at h
      subst h
      rfl
    | outOfDateOrSuboptimal =>
      simp only [Frame.draw_frame, Option.some.injEq] at h
      subst h
      rfl
    | deviceError => simp [Frame.draw_frame] at h
  · intro s pres s2 h
    simp only [Frame.draw_frame, Option.some.injEq] at h
    subst h
    rfl

/-- Claim C2 witness: a successful tick from the initial state advances the
frame index from 0 to 1. -/
theorem C2_witness :
    (Frame.RtState.mk 1
        [{ fence := Frame.FenceStatus.pending 0, last_submission := some 0 },
         { fence := Frame.FenceStatus.signaled, last_submission := none }]
        0 0 1).current_frame =
      (Frame.rtInit.current_frame + 1) % Frame.MAX_FRAMES_IN_FLIGHT :=
  C2_frame_index_advance.1 Frame.rtInit Frame.PresentRes.success _ (by decide)

/-- Claim C5: the spec says each swapchain/canvas recreation rewrites every
per-frame descriptor binding that depended on the recreated resource. The
code never does: `create_per_frame_descriptor_sets` is called only from
`RtRenderer::new`, and `recreate_swap_chain` contains no descriptor write,
so the per-frame descriptor generation is invariant across every tick. In
particular one acquire-staleness tick destroys canvas generation 0 and
builds generation 1, while the descriptor sets still hold the destroyed
generation-0 image views. -/
theorem C5_descriptors_never_rewritten :
    (∀ (s : Frame.RtState) (acq : Frame.AcquireRes) (pres : Frame.PresentRes)
        (s2 : Frame.RtState),
      Frame.draw_frame s acq pres = some s2 →
      s2.descriptor_canvas_generation = s.descriptor_canvas_generation) ∧
    (Frame.draw_frame Frame.rtInit Frame.AcquireRes.outOfDate
        Frame.PresentRes.success).map
        (fun s2 => (s2.canvas_generation, s2.descriptor_canvas_generation)) =
      some (1, 0) := by
  refine ⟨?_, by decide⟩
  intro s acq pres s2 h
  cases acq with
  | outOfDate =>
    simp only [Frame.draw_frame, Option.some.injEq] at h
    subst h
    rfl
  | deviceError => simp [Frame.draw_frame] at h
  | success =>
    cases pres with
    | success =>
      simp only [Frame.draw_frame, Option.some.injEq] at h
      subst h
      rfl
    | outOfDateOrSuboptimal =>
      simp only [Frame.draw_frame, Option.some.injEq] at h
      subst h
      rfl
    | deviceError => simp [Frame.draw_frame] at h

/-- Claim C5 witness: the invariance applied at the concrete staleness
tick from the initial state. -/
theorem C5_witness :
    (Frame.RtState.mk 0
        [{ fence := Frame.FenceStatus.signaled, last_submission := none },
         { fence := Frame.FenceStatus.signaled, last_submission := none }]
        1 0 0).descriptor_canvas_generation =
      Frame.rtInit.descriptor_canvas_generation :=
  C5_descriptors_never_rewritten.1 Frame.rtInit Frame.AcquireRes.outOfDate
    Frame.PresentRes.success _ (by decide)

/-- Claim C10: `setup_sync_objects` creates every slot's in-flight fence in
the signaled state, so the first fence wait of each slot completes without
any prior GPU work; and in every state reachable by any sequence of frame
ticks, each slot's fence is either signaled or pending on that slot's own
most recent submission. -/
theorem C10_fence_protocol :
    (∀ sl ∈ Frame.rtInit.slots, sl.fence = Frame.FenceStatus.signaled) ∧
    (∀ (ticks : List (Frame.AcquireRes × Frame.PresentRes)) (s : Frame.RtState),
      Frame.run_ticks Frame.rtInit ticks = some s → Frame.fence_inv s) := by
  constructor
  · intro sl hsl
    simp only [Frame.rtInit, Frame.setup_sync_objects, Frame.MAX_FRAMES_IN_FLIGHT,
      List.mem_replicate] at hsl
    rw [hsl.2]
  · intro ticks s hrun
    apply Frame.fence_inv_run ticks Frame.rtInit s _ hrun
    intro sl hsl
    simp only [Frame.rtInit, Frame.setup_sync_objects, Frame.MAX_FRAMES_IN_FLIGHT,
      List.mem_replicate] at hsl
    rw [hsl.2]
    exact Or.inl rfl

/-- Claim C10 witness: the initial fences are signaled, and the fence
invariant holds in the state reached by one successful tick. -/
theorem C10_witness :
    ({ fence := Frame.FenceStatus.signaled, last_submission := none } : Frame.Slot).fence =
      Frame.FenceStatus.signaled ∧
    Frame.fence_inv
      (Frame.RtState.mk 1
        [{ fence := Frame.FenceStatus.pending 0, last_submission := some 0 },
         { fence := Frame.FenceStatus.signaled, last_submission := none }]
        0 0 1) :=
  ⟨C10_fence_protocol.1 _ (by decide),
   C10_fence_protocol.2 [(Frame.AcquireRes.success, Frame.PresentRes.success)] _ (by decide)⟩

theorem contains_of_mem {a : Nat} {l : List Nat} (h : a ∈ l) : l.contains a = true := by
  simpa [List.contains] using List.elem_iff.mpr h

theorem AccelTrace.run_append (d : AccelTrace.Dev) (t1 t2 : List AccelTrace.Ev) :
    AccelTrace.run d (t1 ++ t2) = AccelTrace.run (AccelTrace.run d t1) t2 :=
  List.foldl_append _ _ _ _

theorem AccelTrace.run_blas (blt : List Nat) (ok : Bool) (b : Nat) :
    AccelTrace.run ⟨[], blt, ok⟩ (AccelTrace.new_blas_trace b) = ⟨[], blt ++ [b], ok⟩ := by
  simp [AccelTrace.run, AccelTrace.new_blas_trace, AccelTrace.new_initialized_trace,
    AccelTrace.single_time, AccelTrace.step, List.foldl]

theorem AccelTrace.run_uploads (refs : List Nat) (blt : List Nat) (ok : Bool) :
    AccelTrace.run ⟨[], blt, ok⟩
      ((refs.map fun _ => AccelTrace.new_initialized_trace).flatten) = ⟨[], blt, ok⟩ := by
  induction refs with
  | nil => rfl
  | cons r rest ih =>
    rw [List.map_cons, List.flatten_cons, AccelTrace.run_append]
    have h1 : AccelTrace.run ⟨[], blt, ok⟩ AccelTrace.new_initialized_trace =
        ⟨[], blt, ok⟩ := by
      simp [AccelTrace.run, AccelTrace.new_initialized_trace, AccelTrace.single_time,
        AccelTrace.step, List.foldl]
    rw [h1, ih]

theorem AccelTrace.run_tlas (refs : List Nat) (blt : List Nat) (ok : Bool) :
    AccelTrace.run ⟨[], blt, ok⟩ (AccelTrace.new_tlas_trace refs) =
      ⟨[], blt, ok && refs.all fun r => blt.contains r⟩ := by
  unfold AccelTrace.new_tlas_trace
  rw [AccelTrace.run_append, AccelTrace.run_uploads]
  simp [AccelTrace.run, AccelTrace.single_time, AccelTrace.step, List.foldl]

theorem AccelTrace.wf_run_ok :
    ∀ (cs : List AccelTrace.Call) (done blt : List Nat) (ok : Bool),
      AccelTrace.wf done cs = true → ok = true →
      (∀ r ∈ done, blt.contains r = true) →
      (AccelTrace.run ⟨[], blt, ok⟩ (AccelTrace.progTrace cs)).ok = true := by
  intro cs
  induction cs with
  | nil =>
    intro done blt ok _ hok _
    exact hok
  | cons c rest ih =>
    intro done blt ok hwf hok hmem
    rw [show AccelTrace.progTrace (c :: rest) =
        AccelTrace.callTrace c ++ AccelTrace.progTrace rest from by
      simp [AccelTrace.progTrace], AccelTrace.run_append]
    cases c with
    | blas b =>
      rw [show AccelTrace.callTrace (AccelTrace.Call.blas b) =
          AccelTrace.new_blas_trace b from rfl, AccelTrace.run_blas]
      apply ih (b :: done) (blt ++ [b]) ok hwf hok
      intro r hr
      rcases List.mem_cons.mp hr with h1 | h1
      · subst h1
        exact contains_of_mem (by simp)
      · have h2 : r ∈ blt := by simpa [List.contains] using hmem r h1
        exact contains_of_mem (by simp [h2])
    | tlas refs =>
      rw [show AccelTrace.callTrace (AccelTrace.Call.tlas refs) =
          AccelTrace.new_tlas_trace refs from rfl, AccelTrace.run_tlas]
      simp only [AccelTrace.wf, Bool.and_eq_true] at hwf
      have hall : (refs.all fun r => blt.contains r) = true := by
        rw [List.all_eq_true]
        intro r hr
        have h1 : done.contains r = true := List.all_eq_true.mp hwf.1 r hr
        have h2 : r ∈ done := List.elem_iff.mp (by simpa [List.contains] using h1)
        exact hmem r h2
      rw [hok, hall]
      exact ih done blt true hwf.2 rfl hmem

/-- Claim C1: every acceleration-structure build and staging upload is
synchronous — `end_single_time_commands` performs `queue_submit` and then
`queue_wait_idle` before returning — so for every well-formed call sequence
(each `new_tlas` invoked on BLAS values already returned by earlier
`new_blas` calls), the device check that every `buildTlas` submission
happens with all of its referenced BLAS builds already completed on the
device succeeds: the TLAS build command is never submitted before every
BLAS it references has completed its own build. -/
theorem C1_blas_complete_before_tlas_submit :
    ∀ (cs : List AccelTrace.Call), AccelTrace.wf [] cs = true →
      (AccelTrace.run AccelTrace.initDev (AccelTrace.progTrace cs)).ok = true := by
  intro cs hwf
  exact AccelTrace.wf_run_ok cs [] [] true hwf rfl (fun r hr => absurd hr (by simp))

/-- Claim C1 witness: two BLAS builds followed by a TLAS over both. -/
theorem C1_witness :
    (AccelTrace.run AccelTrace.initDev
        (AccelTrace.progTrace [AccelTrace.Call.blas 0, AccelTrace.Call.blas 1,
          AccelTrace.Call.tlas [0, 1]])).ok = true :=
  C1_blas_complete_before_tlas_submit _ (by decide)

theorem listModify_append_add {α : Type} (l t : List α) (n : Nat) (f : α → α) :
    listModify (l ++ t) (l.length + n) f = l ++ listModify t n f := by
  induction l with
  | nil => simp [listModify]
  | cons a rest ih =>
    have h1 : (a :: rest).length + n = Nat.succ (rest.length + n) := by
      simp [List.length_cons]
      omega
    rw [List.cons_append, h1]
    show a :: listModify (rest ++ t) (rest.length + n) f = (a :: rest) ++ listModify t n f
    rw [ih, List.cons_append]

theorem listModify_append_zero {α : Type} (l t : List α) (x : α) (f : α → α) :
    listModify (l ++ x :: t) l.length f = l ++ f x :: t := by
  have h := listModify_append_add l (x :: t) 0 f
  rw [Nat.add_zero] at h
  rw [h]
  rfl

theorem listModify_append_one {α : Type} (l t : List α) (x y : α) (f : α → α) :
    listModify (l ++ x :: y :: t) (l.length + 1) f = l ++ x :: f y :: t := by
  have h := listModify_append_add l (x :: y :: t) 1 f
  rw [h]
  rfl

theorem listModify_append_two {α : Type} (l t : List α) (x y z : α) (f : α → α) :
    listModify (l ++ x :: y :: z :: t) (l.length + 2) f = l ++ x :: y :: f z :: t := by
  have h := listModify_append_add l (x :: y :: z :: t) 2 f
  rw [h]
  rfl

theorem getD_append_add {α : Type} (l t : List α) (n : Nat) (d : α) :
    (l ++ t).getD (l.length + n) d = t.getD n d := by
  rw [List.getD_append_right l t d (l.length + n) (Nat.le_add_right _ _)]
  congr 1
  omega

theorem getD_append_zero {α : Type} (l t : List α) (x : α) (d : α) :
    (l ++ x :: t).getD l.length d = x := by
  have h := getD_append_add l (x :: t) 0 d
  rw [Nat.add_zero] at h
  rw [h]
  rfl

theorem getD_append_one {α : Type} (l t : List α) (x y : α) (d : α) :
    (l ++ x :: y :: t).getD (l.length + 1) d = y := by
  rw [getD_append_add l (x :: y :: t) 1 d]
  rfl

theorem getD_append_two {α : Type} (l t : List α) (x y z : α) (d : α) :
    (l ++ x :: y :: z :: t).getD (l.length + 2) d = z := by
  rw [getD_append_add l (x :: y :: z :: t) 2 d]
  rfl

theorem flatten_length_uniform (items : List (List Nat)) (sz : Nat)
    (h : ∀ it ∈ items, it.length = sz) :
    items.flatten.length = sz * items.length := by
  induction items with
  | nil => simp
  | cons a rest ih =>
    simp only [List.flatten_cons, List.length_append, List.length_cons]
    rw [h a (by simp), ih (fun it hit => h it (by simp [hit])), Nat.mul_succ]
    omega

theorem Staging.new_initialized_eq (bs : List Staging.Buffer) (item_size : Nat)
    (items : List (List Nat)) (h : ∀ it ∈ items, it.length = item_size) :
    Staging.new_initialized ⟨bs, []⟩ item_size items =
      (⟨bs ++
          [{ bytes := List.replicate (item_size * items.length) none,
             item_count := 0, freed := true },
           { bytes := items.flatten.map some,
             item_count := items.length, freed := false }], []⟩,
       bs.length + 1) := by
  have hflen : items.flatten.length = item_size * items.length :=
    flatten_length_uniform items item_size h
  have hmaplen : (items.flatten.map some).length = item_size * items.length := by
    rw [List.length_map, hflen]
  simp only [Staging.new_initialized, Staging.create_buffer, Staging.map_write,
    Staging.copy_buffer, Staging.cmd_copy_buffer, Staging.queue_wait_idle,
    Staging.set_item_count, Staging.destroy_buffer, List.nil_append, List.foldl,
    Staging.do_copy, Staging.getBuf]
  have hB1 : (listModify
      (bs ++ [{ bytes := List.replicate (item_size * items.length) none,
                item_count := 0, freed := false }])
      bs.length fun b =>
      { bytes := List.map some items.flatten ++ List.drop items.flatten.length b.bytes,
        item_count := b.item_count, freed := b.freed }) =
      bs ++ [{ bytes := List.map some items.flatten, item_count := 0, freed := false }] := by
    rw [listModify_append_zero]
    simp [hflen, List.drop_replicate]
  rw [hB1]
  simp only [List.append_assoc, List.cons_append, List.nil_append, List.length_append,
    List.length_cons, List.length_nil, Nat.zero_add]
  rw [getD_append_zero]
  simp only []
  rw [List.take_of_length_le (le_of_eq hmaplen)]
  rw [listModify_append_one]
  rw [listModify_append_one]
  rw [listModify_append_zero]
  have hsum : (List.map (List.length ∘ List.map some) items).sum = item_size * items.length := by
    have heq : List.map (List.length ∘ List.map some) items = List.map List.length items := by
      apply List.map_congr_left
      intro a _
      simp
    rw [heq, ← List.length_flatten, hflen]
  simp [hflen, hmaplen, List.drop_replicate, hsum]

theorem Staging.read_back_eq (bufs : List Staging.Buffer) (id size : Nat)
    (hid : id < bufs.length)
    (hlen : (Staging.getBuf bufs id).bytes.length = size) :
    Staging.read_back ⟨bufs, []⟩ id size = (Staging.getBuf bufs id).bytes := by
  simp only [Staging.read_back, Staging.create_buffer, Staging.copy_buffer,
    Staging.cmd_copy_buffer, Staging.queue_wait_idle, Staging.do_copy, Staging.getBuf,
    List.nil_append, List.foldl]
  unfold Staging.getBuf at hlen
  rw [List.getD_append _ _ _ _ hid]
  rw [List.take_of_length_le (le_of_eq hlen)]
  rw [listModify_append_zero]
  rw [getD_append_zero]
  simp [List.drop_replicate]

/-- Claim C7: for every fixed-size item type and every input of K >= 1
items, `GpuBuffer::new_initialized` returns synchronously (the one-shot
copy submission is drained by the wait-idle: no device work is pending at
return) with a destination buffer whose `item_count` equals K and whose
device-resident contents are exactly the `item_size * K` input bytes;
reading the destination back through a second staging copy reproduces the
original bytes exactly. `bs` is the arbitrary table of pre-existing
buffers. -/
theorem C7_staging_upload_round_trip :
    ∀ (bs : List Staging.Buffer) (item_size : Nat) (items : List (List Nat)),
      (∀ it ∈ items, it.length = item_size) → 1 ≤ items.length →
      (Staging.getBuf (Staging.new_initialized ⟨bs, []⟩ item_size items).1.buffers
          (Staging.new_initialized ⟨bs, []⟩ item_size items).2).item_count = items.length ∧
      (Staging.new_initialized ⟨bs, []⟩ item_size items).1.pending = [] ∧
      (Staging.getBuf (Staging.new_initialized ⟨bs, []⟩ item_size items).1.buffers
          (Staging.new_initialized ⟨bs, []⟩ item_size items).2).bytes =
        items.flatten.map some ∧
      Staging.read_back (Staging.new_initialized ⟨bs, []⟩ item_size items).1
          (Staging.new_initialized ⟨bs, []⟩ item_size items).2
          (item_size * items.length) =
        items.flatten.map some := by
  intro bs item_size items h hK
  have hmaplen : (items.flatten.map some).length = item_size * items.length := by
    rw [List.length_map]
    exact flatten_length_uniform items item_size h
  rw [Staging.new_initialized_eq bs item_size items h]
  simp only []
  refine ⟨?_, by trivial, ?_, ?_⟩
  · unfold Staging.getBuf
    rw [getD_append_one]
  · unfold Staging.getBuf
    rw [getD_append_one]
  · rw [Staging.read_back_eq]
    · unfold Staging.getBuf
      rw [getD_append_one]
    · simp
    · unfold Staging.getBuf
      rw [getD_append_one, hmaplen]

/-- Claim C7 witness: uploading two 2-byte items round-trips. -/
theorem C7_witness :
    (Staging.getBuf (Staging.new_initialized ⟨[], []⟩ 2 [[1, 2], [3, 4]]).1.buffers
        (Staging.new_initialized ⟨[], []⟩ 2 [[1, 2], [3, 4]]).2).item_count =
      [[1, 2], [3, 4]].length ∧
    (Staging.new_initialized ⟨[], []⟩ 2 [[1, 2], [3, 4]]).1.pending = [] ∧
    (Staging.getBuf (Staging.new_initialized ⟨[], []⟩ 2 [[1, 2], [3, 4]]).1.buffers
        (Staging.new_initialized ⟨[], []⟩ 2 [[1, 2], [3, 4]]).2).bytes =
      ([[1, 2], [3, 4]] : List (List Nat)).flatten.map some ∧
    Staging.read_back (Staging.new_initialized ⟨[], []⟩ 2 [[1, 2], [3, 4]]).1
        (Staging.new_initialized ⟨[], []⟩ 2 [[1, 2], [3, 4]]).2
        (2 * [[1, 2], [3, 4]].length) =
      ([[1, 2], [3, 4]] : List (List Nat)).flatten.map some :=
  C7_staging_upload_round_trip [] 2 [[1, 2], [3, 4]] (by decide) (by decide)

end Cubulous
